import Mathlib

/-!
Shallow embedding of the lil-saplings blog API core (an Express/Mongoose CRUD
service for `Post` records with Cloudinary-hosted images), together with
theorems settling the specification claims about it.

Source files embedded here:
  * `src/models/Post.js`        — the Post schema (heading, description, image).
  * `src/routes/posts.js`       — the route handlers (list, get, create, update, delete)
                                  and the multer upload middleware chain.
  * `src/middleware/validate.js` and `src/unnamed/part_001` (validators)
                                  — express-validator chains and error formatting.
  * `src/unnamed/part_000`      — the three express-rate-limit limiters.
  * `src/unnamed/part_002`      — the Cloudinary adapter (`deleteImage`).
  * `src/api/index.js`          — the route mounting (`app.use('/api/posts', apiLimiter, ...)`).

Side effects on external stores are modelled by explicit state passing plus an
event trace (`Event`), so temporal ordering between asset-store calls and
record-store calls is visible in the order of the emitted trace.
-/

namespace LilSaplings

/-- A persisted Post record, from `src/models/Post.js` (`PostSchema`):
`heading` and `description` are required strings, `image` is a string with
schema default `''` (so it is always a string on every persisted record). -/
structure Post where
  heading : String
  description : String
  image : String
deriving DecidableEq, Repr

/-- The Record Store (MongoDB collection of Post documents), modelled as an
association list from document id to record. -/
abbrev RecordStore := List (Nat × Post)

/-- `Post.findById`: look a record up by id. -/
def findById (id : Nat) (s : RecordStore) : Option Post :=
  (s.find? (fun e => e.1 = id)).map (fun e => e.2)

/-- `Post.findByIdAndUpdate` result state: replace the record stored at `id`
(leaves the store unchanged when `id` is absent, as Mongo does). -/
def storeSet (id : Nat) (p : Post) : RecordStore → RecordStore
  | [] => []
  | (i, q) :: rest => if i = id then (i, p) :: rest else (i, q) :: storeSet id p rest

/-- `Post.findByIdAndDelete` result state: remove the record stored at `id`. -/
def storeRemove (id : Nat) : RecordStore → RecordStore
  | [] => []
  | (i, q) :: rest => if i = id then rest else (i, q) :: storeRemove id rest

/-- Observable side effects on the two external stores, in the order the route
code performs them. `assetUpload`/`assetDelete` are Cloudinary calls
(`storage` upload via multer, `deleteImage`); the `record*` events are the
Mongoose calls that durably change the Record Store. -/
inductive Event where
  | assetUpload (url : String)
  | assetDelete (url : String)
  | recordCreate (id : Nat)
  | recordUpdate (id : Nat)
  | recordDelete (id : Nat)
deriving DecidableEq, Repr

/-- The body of a PUT `/api/posts/:id` request as the handler sees it after the
middleware ran: optional text fields `heading`/`description`
(`none` = field absent from the request) and `req.file` (`some url` when multer
received an image part and already stored it at `url`). -/
structure UpdateBody where
  heading : Option String
  description : Option String
  file : Option String
deriving DecidableEq, Repr

/-- JavaScript truthiness of an optional string (`if (heading) ...`):
present and non-empty. -/
def truthy : Option String → Bool
  | none => false
  | some s => !s.isEmpty

/-- The `updateData` object built by the PUT handler
(`src/routes/posts.js:313-325`): a field enters the partial update only when
its body value is truthy; `image` enters exactly when `req.file` is present. -/
structure UpdateData where
  heading : Option String
  description : Option String
  image : Option String
deriving DecidableEq, Repr

def mkUpdateData (b : UpdateBody) : UpdateData :=
  { heading := if truthy b.heading then b.heading else none
    description := if truthy b.description then b.description else none
    image := b.file }

/-- Applying a partial update to an existing record
(`findByIdAndUpdate` field semantics: absent keys keep the stored value). -/
def applyUpdateData (p : Post) (u : UpdateData) : Post :=
  { heading := u.heading.getD p.heading
    description := u.description.getD p.description
    image := u.image.getD p.image }

/-- The PUT `/api/posts/:id` request (`src/routes/posts.js:294-346`), middleware
included. Order of effects, read off the source: multer (`upload.single`)
stores any attached image first; the handler then does `findById`, and when a
new file is present it `deleteImage`s the existing image (if any) BEFORE
calling `findByIdAndUpdate`. Returns (new store, event trace, HTTP status). -/
def updateRequest (store : RecordStore) (id : Nat) (b : UpdateBody) :
    RecordStore × List Event × Nat :=
  let uploadEvents := match b.file with
    | some u => [Event.assetUpload u]
    | none => []
  match findById id store with
  | none => (store, uploadEvents, 404)
  | some existing =>
    let cleanupEvents := match b.file with
      | some _ => if existing.image ≠ "" then [Event.assetDelete existing.image] else []
      | none => []
    let newPost := applyUpdateData existing (mkUpdateData b)
    (storeSet id newPost store, uploadEvents ++ cleanupEvents ++ [Event.recordUpdate id], 200)

/-- The DELETE `/api/posts/:id` request (`src/routes/posts.js:369-398`).
Order of effects, read off the source: `findById`; if the record has an image,
`deleteImage` it; THEN `findByIdAndDelete` the record. -/
def deleteRequest (store : RecordStore) (id : Nat) :
    RecordStore × List Event × Nat :=
  match findById id store with
  | none => (store, [], 404)
  | some p =>
    let cleanupEvents := if p.image ≠ "" then [Event.assetDelete p.image] else []
    (storeRemove id store, cleanupEvents ++ [Event.recordDelete id], 200)

/-- Claim C1's ordering property over a trace: every deletion of the previous
image occurs only AFTER the record update. -/
def oldImageDeletedOnlyAfterUpdate (tr : List Event) (oldUrl : String) (id : Nat) : Prop :=
  ∀ i j, tr.get? i = some (Event.assetDelete oldUrl) →
    tr.get? j = some (Event.recordUpdate id) → j < i

/-- Claim C2's ordering property over a trace: the record deletion occurs
BEFORE the asset cleanup of its image. -/
def recordDeletedBeforeAssetCleanup (tr : List Event) (imgUrl : String) (id : Nat) : Prop :=
  ∀ i j, tr.get? i = some (Event.recordDelete id) →
    tr.get? j = some (Event.assetDelete imgUrl) → i < j

/-- A concrete store with one post that has an image, for the C1/C2 scenarios. -/
def storeOneImage : RecordStore :=
  [(0, { heading := "Old heading", description := "old description text",
         image := "http://res.example/blog-uploads/old.png" })]

/-- A concrete PUT body replacing the image. -/
def bodyReplaceImage : UpdateBody :=
  { heading := none, description := none,
    file := some "http://res.example/blog-uploads/new.png" }

/-- C1 (counterexample): the claim "the previous image is deleted from the
Asset Store only after the record update has durably succeeded" is false on
the code: on a store holding one post with an image, a PUT replacing the image
emits the `assetDelete` of the old image strictly BEFORE the `recordUpdate`. -/
theorem claim1_counterexample :
    ¬ oldImageDeletedOnlyAfterUpdate
        (updateRequest storeOneImage 0 bodyReplaceImage).2.1
        "http://res.example/blog-uploads/old.png" 0 := by
  intro h
  have h12 := h 1 2 (by decide) (by decide)
  omega

/-- C1 (amended): for every update request that replaces a post's image, the
handler deletes the previous image BEFORE the record update is persisted: the
trace is exactly `assetUpload new`, then `assetDelete old`, then
`recordUpdate` — the reverse of the ordering the claim states. -/
theorem claim1_amended (store : RecordStore) (id : Nat) (b : UpdateBody)
    (p : Post) (u : String)
    (hp : findById id store = some p) (himg : p.image ≠ "")
    (hf : b.file = some u) :
    (updateRequest store id b).2.1 =
      [Event.assetUpload u, Event.assetDelete p.image, Event.recordUpdate id] := by
  simp only [updateRequest, hp, hf, if_pos himg]
  rfl

/-- C1 witness: the amended theorem at the concrete one-post store. -/
theorem claim1_witness :
    (updateRequest storeOneImage 0 bodyReplaceImage).2.1 =
      [Event.assetUpload "http://res.example/blog-uploads/new.png",
       Event.assetDelete "http://res.example/blog-uploads/old.png",
       Event.recordUpdate 0] :=
  claim1_amended storeOneImage 0 bodyReplaceImage
    { heading := "Old heading", description := "old description text",
      image := "http://res.example/blog-uploads/old.png" }
    "http://res.example/blog-uploads/new.png"
    (by decide) (by decide) rfl

/-- C2 (counterexample): the claim "the record is deleted from the Record
Store before the asset cleanup call for its image is made" is false on the
code: the DELETE handler emits `assetDelete` of the post's image strictly
BEFORE `recordDelete`. -/
theorem claim2_counterexample :
    ¬ recordDeletedBeforeAssetCleanup
        (deleteRequest storeOneImage 0).2.1
        "http://res.example/blog-uploads/old.png" 0 := by
  intro h
  have h10 := h 1 0 (by decide) (by decide)
  omega

/-- C2 (amended): for every delete request on an existing post that has an
image, the asset cleanup call is made BEFORE the record is deleted from the
Record Store: the trace is exactly `assetDelete image` then `recordDelete` —
the reverse of the ordering the claim states, so there is an interleaving
point where a live record references a deleted blob. -/
theorem claim2_amended (store : RecordStore) (id : Nat) (p : Post)
    (hp : findById id store = some p) (himg : p.image ≠ "") :
    (deleteRequest store id).2.1 =
      [Event.assetDelete p.image, Event.recordDelete id] := by
  simp only [deleteRequest, hp, if_pos himg]
  rfl

/-- C2 witness: the amended theorem at the concrete one-post store. -/
theorem claim2_witness :
    (deleteRequest storeOneImage 0).2.1 =
      [Event.assetDelete "http://res.example/blog-uploads/old.png",
       Event.recordDelete 0] :=
  claim2_amended storeOneImage 0
    { heading := "Old heading", description := "old description text",
      image := "http://res.example/blog-uploads/old.png" }
    (by decide) (by decide)

/-! ### Validation Layer: `postValidators.create` + `validate`
(`src/unnamed/part_001:5-15`, `src/middleware/validate.js:3-24`) -/

/-- ASCII whitespace, as stripped by the `.trim()` sanitizer. -/
def isSpaceChar (c : Char) : Bool :=
  c = ' ' || c = '\t' || c = '\n' || c = '\r'

/-- Strip leading and trailing whitespace from a character list. -/
def trimChars (l : List Char) : List Char :=
  ((l.dropWhile isSpaceChar).reverse.dropWhile isSpaceChar).reverse

/-- The JavaScript `String.prototype.trim` used by the `.trim()` sanitizer,
over the string's character list (kernel-computable; coincides with JS trim on
the ASCII inputs of this development). -/
def jsTrim (s : String) : String := String.mk (trimChars s.data)

/-- JavaScript `.length` of a string (UTF-16 code units; equals the character
count on the ASCII inputs of this development). -/
def jsLength (s : String) : Nat := s.data.length

/-- The value an express-validator chain validates for a body field: the field
(absent behaves like the empty string under `notEmpty`/`isLength`) after the
`.trim()` sanitizer. -/
def trimmedField (v : Option String) : String := jsTrim (v.getD "")

/-- Messages produced for a (trimmed) `heading` value by
`body('heading').trim().notEmpty().withMessage(...).isLength(min 3, max 200)`:
each failing validator appends its message, in chain order. -/
def headingMsgs (t : String) : List String :=
  (if t = "" then ["Heading is required"] else []) ++
  (if 3 ≤ jsLength t ∧ jsLength t ≤ 200 then []
   else ["Heading must be between 3 and 200 characters"])

/-- Messages produced for a (trimmed) `description` value by
`body('description').trim().notEmpty().withMessage(...).isLength(min 10)`. -/
def descriptionMsgs (t : String) : List String :=
  (if t = "" then ["Description is required"] else []) ++
  (if 10 ≤ jsLength t then []
   else ["Description must be at least 10 characters"])

/-- The formatted error object built by `validate`
(`src/middleware/validate.js`): a map from field path to the ordered list of
that field's messages, fields in chain order, empty when validation passes. -/
def createErrors (h d : Option String) : List (String × List String) :=
  (if headingMsgs (trimmedField h) = [] then []
   else [("heading", headingMsgs (trimmedField h))]) ++
  (if descriptionMsgs (trimmedField d) = [] then []
   else [("description", descriptionMsgs (trimmedField d))])

theorem headingMsgs_eq_nil (t : String) :
    headingMsgs t = [] ↔ 3 ≤ jsLength t ∧ jsLength t ≤ 200 := by
  unfold headingMsgs
  by_cases h0 : t = ""
  · subst h0
    simp [jsLength]
  · by_cases hl : 3 ≤ jsLength t ∧ jsLength t ≤ 200 <;> simp [h0, hl]

theorem descriptionMsgs_eq_nil (t : String) :
    descriptionMsgs t = [] ↔ 10 ≤ jsLength t := by
  unfold descriptionMsgs
  by_cases h0 : t = ""
  · subst h0
    simp [jsLength]
  · by_cases hl : 10 ≤ jsLength t <;> simp [h0, hl]

/-- C6: creation-input validation accepts a body iff the trimmed heading has
length in [3, 200] and the trimmed description has length ≥ 10; heading "ab"
is rejected and "abc" accepted, a 10-character description is accepted and a
9-character one rejected, and a violating body yields the structured
field-to-ordered-messages map. -/
theorem claim6_theorem :
    (∀ h d : Option String,
      createErrors h d = [] ↔
        (3 ≤ jsLength (trimmedField h) ∧ jsLength (trimmedField h) ≤ 200 ∧
         10 ≤ jsLength (trimmedField d))) ∧
    createErrors (some "ab") (some "a valid description") ≠ [] ∧
    createErrors (some "abc") (some "a valid description") = [] ∧
    createErrors (some "Valid heading") (some "0123456789") = [] ∧
    createErrors (some "Valid heading") (some "012345678") ≠ [] ∧
    createErrors (some "ab") (some "short") =
      [("heading", ["Heading must be between 3 and 200 characters"]),
       ("description", ["Description must be at least 10 characters"])] := by
  refine ⟨fun h d => ?_, by decide, by decide, by decide, by decide, by decide⟩
  unfold createErrors
  by_cases hh : headingMsgs (trimmedField h) = [] <;>
    by_cases hd : descriptionMsgs (trimmedField d) = [] <;>
      simp [hh, hd, ← headingMsgs_eq_nil, ← descriptionMsgs_eq_nil, and_assoc]

/-! ### The POST `/api/posts` pipeline (`src/routes/posts.js:217-254`)
Middleware order, read off the source: `auth`, `uploadLimiter`,
`upload.single('image')` (multer with CloudinaryStorage — parsing the
multipart body STORES any attached image in the Asset Store and sets
`req.file.path` to its URL), then `postValidators.create`, `validate`, then
the handler, which builds `postData` (adding `image: req.file.path` only when
a file arrived) and saves a new record. Rate admission is modelled separately
(see the Limiter section); here requests are taken as within budget. -/

/-- A create request: validity of the presented credential, the two body text
fields (`none` = absent) and the attached image part (`some url` = an image
whose Cloudinary URL will be `url`). -/
structure CreateRequest where
  authValid : Bool
  heading : Option String
  description : Option String
  file : Option String
deriving DecidableEq, Repr

/-- The POST `/api/posts` request, middleware included: auth check, multer
upload of the attached image (BEFORE validation — this is the source's
middleware order), field validation, then record creation with the schema
default `image = ''` when no file arrived. Returns
(new store, event trace, HTTP status). -/
def createRequest (req : CreateRequest) (store : RecordStore) (fresh : Nat) :
    RecordStore × List Event × Nat :=
  if !req.authValid then (store, [], 401)
  else
    let uploadEvents := match req.file with
      | some u => [Event.assetUpload u]
      | none => []
    if createErrors req.heading req.description ≠ [] then
      (store, uploadEvents, 400)
    else
      let post : Post :=
        { heading := trimmedField req.heading
          description := trimmedField req.description
          image := req.file.getD "" }
      ((fresh, post) :: store, uploadEvents ++ [Event.recordCreate fresh], 201)

/-- Claim C3's property as stated: an authenticated mutating request whose
body fields fail validation causes no side effect at all — the store is
unchanged and, in particular, no image blob is uploaded to the Asset Store. -/
def validationBeforeAnySideEffect : Prop :=
  ∀ (req : CreateRequest) (store : RecordStore) (fresh : Nat),
    req.authValid = true →
    createErrors req.heading req.description ≠ [] →
    (createRequest req store fresh).1 = store ∧
    ∀ u, Event.assetUpload u ∉ (createRequest req store fresh).2.1

/-- A concrete invalid create request carrying an image: heading too short,
valid description, image attached. -/
def invalidCreateWithImage : CreateRequest :=
  { authValid := true, heading := some "ab",
    description := some "a perfectly valid description",
    file := some "http://res.example/blog-uploads/x.png" }

/-- C3 (counterexample): the claim fails on the code — multer stores the
attached image during body parsing, BEFORE the validators run, so a request
with an invalid heading and an attached image is rejected with 400 yet its
blob was uploaded to the Asset Store. -/
theorem claim3_counterexample : ¬ validationBeforeAnySideEffect := by
  intro h
  have hmem :=
    (h invalidCreateWithImage [] 0 rfl (by decide)).2
      "http://res.example/blog-uploads/x.png"
  apply hmem
  have htr : (createRequest invalidCreateWithImage [] 0).2.1 =
      [Event.assetUpload "http://res.example/blog-uploads/x.png"] := by decide
  rw [htr]
  exact List.mem_singleton.mpr rfl

/-- C3 (amended): a validation failure is detected before any Record Store
side effect — the store is unchanged, the response is 400 and no record is
created — but AFTER asset handling: an attached image has already been
uploaded to the Asset Store when validation rejects the request (asset
handling precedes field validation in the pipeline, not the other way
around). -/
theorem claim3_amended (req : CreateRequest) (store : RecordStore) (fresh : Nat)
    (ha : req.authValid = true)
    (hv : createErrors req.heading req.description ≠ []) :
    (createRequest req store fresh).1 = store ∧
    (createRequest req store fresh).2.2 = 400 ∧
    (∀ id, Event.recordCreate id ∉ (createRequest req store fresh).2.1) ∧
    (∀ u, req.file = some u →
      (createRequest req store fresh).2.1 = [Event.assetUpload u]) := by
  have h1 : createRequest req store fresh =
      (store,
       (match req.file with
        | some u => [Event.assetUpload u]
        | none => []),
       400) := by
    unfold createRequest
    rw [ha]
    simp [hv]
  rw [h1]
  refine ⟨rfl, rfl, ?_, ?_⟩
  · intro id hmem
    cases hf : req.file with
    | none => rw [hf] at hmem; simp at hmem
    | some u => rw [hf] at hmem; simp at hmem
  · intro u hf
    rw [hf]

/-- C3 witness: the amended theorem at the concrete invalid request. -/
theorem claim3_witness :
    (createRequest invalidCreateWithImage [] 0).1 = [] ∧
    (createRequest invalidCreateWithImage [] 0).2.2 = 400 ∧
    (∀ id, Event.recordCreate id ∉ (createRequest invalidCreateWithImage [] 0).2.1) ∧
    (∀ u, invalidCreateWithImage.file = some u →
      (createRequest invalidCreateWithImage [] 0).2.1 = [Event.assetUpload u]) :=
  claim3_amended invalidCreateWithImage [] 0 rfl (by decide)

/-- C10: a post created without an attached image is persisted with
`image = ""` (the schema default of `src/models/Post.js:17-20`), and in
general the persisted image field is `req.file.path` when a file arrived and
`""` otherwise — in the embedding `Post.image : String`, so the image field of
every persisted record is a string, never absent. -/
theorem claim10_theorem (req : CreateRequest) (store : RecordStore) (fresh : Nat)
    (ha : req.authValid = true)
    (hv : createErrors req.heading req.description = []) :
    ∃ p : Post,
      findById fresh (createRequest req store fresh).1 = some p ∧
      p.image = req.file.getD "" ∧
      (req.file = none → p.image = "") := by
  have h1 : (createRequest req store fresh).1 =
      (fresh,
       { heading := trimmedField req.heading
         description := trimmedField req.description
         image := req.file.getD "" }) :: store := by
    unfold createRequest
    rw [ha]
    simp [hv]
  refine ⟨{ heading := trimmedField req.heading
            description := trimmedField req.description
            image := req.file.getD "" }, ?_, rfl, fun hf => by rw [hf]; rfl⟩
  rw [h1]
  unfold findById
  simp [List.find?]

/-- C10 witness: a concrete valid create request with no image is persisted
with `image = ""`. -/
theorem claim10_witness :
    ∃ p : Post,
      findById 0 (createRequest
        { authValid := true, heading := some "A fine heading",
          description := some "a perfectly valid description", file := none }
        [] 0).1 = some p ∧
      p.image = (none : Option String).getD "" ∧
      ((none : Option String) = none → p.image = "") :=
  claim10_theorem
    { authValid := true, heading := some "A fine heading",
      description := some "a perfectly valid description", file := none }
    [] 0 rfl (by decide)

/-! ### Rate Admission Control (`src/unnamed/part_000`, mounting in
`src/api/index.js:149-150`, route chain in `src/routes/posts.js:217-222,
294-300`) -/

/-- An express-rate-limit limiter: sliding window in milliseconds and maximum
admitted requests per window. Each limiter instance is its own admission
class with its own counters. -/
structure Limiter where
  windowMs : Nat
  maxRequests : Nat
deriving DecidableEq, Repr

/-- `apiLimiter`: the general class, 100 requests / 15 minutes. -/
def apiLimiter : Limiter := { windowMs := 15 * 60 * 1000, maxRequests := 100 }

/-- `authLimiter`: the authentication class, 20 requests / 15 minutes. -/
def authLimiter : Limiter := { windowMs := 15 * 60 * 1000, maxRequests := 20 }

/-- `uploadLimiter`: the upload class, 50 requests / 60 minutes. -/
def uploadLimiter : Limiter := { windowMs := 60 * 60 * 1000, maxRequests := 50 }

/-- The operations of the posts router. -/
inductive PostsOp where
  | list
  | getById
  | create
  | update
  | remove
deriving DecidableEq, Repr

/-- The rate-limiter middlewares an operation passes through, read off the
source: `app.use('/api/posts', apiLimiter, ...)` puts EVERY posts operation
through the general limiter, and `router.post('/')` / `router.put('/:id')`
additionally list `uploadLimiter`. The chain takes `hasImage` as an argument
to record that it does NOT depend on whether an image accompanies the
request: no middleware inspects the body before admission. -/
def limiterChain (_hasImage : Bool) : PostsOp → List Limiter
  | PostsOp.create => [apiLimiter, uploadLimiter]
  | PostsOp.update => [apiLimiter, uploadLimiter]
  | _ => [apiLimiter]

/-- Per-address admission counters, one per class. -/
structure RateCounters where
  general : Nat
  auth : Nat
  upload : Nat
deriving DecidableEq, Repr

/-- Passing one limiter middleware consumes one unit from that limiter's own
class counter (each express-rate-limit instance keeps an independent store). -/
def chargeLimiter (st : RateCounters) (l : Limiter) : RateCounters :=
  if l = apiLimiter then { st with general := st.general + 1 }
  else if l = authLimiter then { st with auth := st.auth + 1 }
  else { st with upload := st.upload + 1 }

/-- Budget consumed by an admitted request: one unit per limiter in its
middleware chain. -/
def chargeChain (st : RateCounters) (ls : List Limiter) : RateCounters :=
  ls.foldl chargeLimiter st

/-- Claim C4's property as stated: every posts operation consumes budget from
exactly one class, and a creation is admitted under the upload class when an
image is attached and under the general class otherwise. -/
def oneClassPerOperation : Prop :=
  (∀ (hasImage : Bool) (op : PostsOp), (limiterChain hasImage op).length = 1) ∧
  (∀ hasImage : Bool, limiterChain hasImage PostsOp.create =
    [if hasImage then uploadLimiter else apiLimiter])

/-- C4 (counterexample): the claim fails on the code — a post-creation
request passes through BOTH `apiLimiter` (general) and `uploadLimiter`
(upload), so its limiter chain has length 2, not 1, whether or not an image
is attached. -/
theorem claim4_counterexample : ¬ oneClassPerOperation := by
  intro h
  exact absurd (h.1 false PostsOp.create) (by decide)

/-- C4 (amended): the three classes keep the claimed budgets (general
100/15min, authentication 20/15min, upload 50/60min) and are evaluated
independently, and list/get/delete requests consume general-class budget
only; but a create or update request is charged against TWO classes at once —
general and upload — regardless of whether an image is attached: its chain is
`[apiLimiter, uploadLimiter]` and admitting it increments both the general
and the upload counter by one, leaving the authentication counter alone. -/
theorem claim4_amended :
    apiLimiter = { windowMs := 15 * 60 * 1000, maxRequests := 100 } ∧
    authLimiter = { windowMs := 15 * 60 * 1000, maxRequests := 20 } ∧
    uploadLimiter = { windowMs := 60 * 60 * 1000, maxRequests := 50 } ∧
    (∀ hasImage : Bool,
      limiterChain hasImage PostsOp.list = [apiLimiter] ∧
      limiterChain hasImage PostsOp.getById = [apiLimiter] ∧
      limiterChain hasImage PostsOp.remove = [apiLimiter] ∧
      limiterChain hasImage PostsOp.create = [apiLimiter, uploadLimiter] ∧
      limiterChain hasImage PostsOp.update = [apiLimiter, uploadLimiter]) ∧
    (∀ (st : RateCounters) (hasImage : Bool),
      chargeChain st (limiterChain hasImage PostsOp.create) =
        { general := st.general + 1, auth := st.auth, upload := st.upload + 1 }) ∧
    (∀ (st : RateCounters) (hasImage : Bool),
      chargeChain st (limiterChain hasImage PostsOp.list) =
        { general := st.general + 1, auth := st.auth, upload := st.upload }) := by
  refine ⟨rfl, rfl, rfl, by decide, fun st _ => ?_, fun st _ => ?_⟩ <;> rfl

/-! ### List pagination (`src/routes/posts.js:118-128`) -/

/-- The `pagination` block of the list response. -/
structure PaginationBlock where
  totalPages : Nat
  currentPage : Nat
  totalPosts : Nat
  limit : Nat
  hasMore : Bool
deriving DecidableEq, Repr

/-- The pagination block computed by the list handler:
`totalPages = Math.ceil(totalPosts / limit)` (embedded as the exact ceiling
division `(totalPosts + limit - 1) / limit`, which `Math.ceil` of the exact
quotient equals for `limit ≥ 1`) and `hasMore = page * limit < totalPosts`. -/
def paginationBlock (totalPosts page limit : Nat) : PaginationBlock :=
  { totalPages := (totalPosts + limit - 1) / limit
    currentPage := page
    totalPosts := totalPosts
    limit := limit
    hasMore := decide (page * limit < totalPosts) }

theorem add_pred_div_eq_ceil (T L : Nat) (hL : 1 ≤ L) :
    (T + L - 1) / L = Nat.ceil ((T : ℚ) / (L : ℚ)) := by
  have hL0 : 0 < L := hL
  have hLQ : (0 : ℚ) < (L : ℚ) := by exact_mod_cast hL0
  rw [← Nat.ceilDiv_eq_add_pred_div]
  apply le_antisymm
  · rw [ceilDiv_le_iff_le_mul hL0]
    have h1 := Nat.le_ceil ((T : ℚ) / (L : ℚ))
    rw [div_le_iff₀ hLQ] at h1
    have h2 : (T : ℚ) ≤ (L : ℚ) * ((Nat.ceil ((T : ℚ) / (L : ℚ)) : ℚ)) := by
      linarith
    exact_mod_cast h2
  · rw [Nat.ceil_le, div_le_iff₀ hLQ]
    have h3 : T ≤ L * (T ⌈/⌉ L) := le_smul_ceilDiv hL0
    have h4 : (T : ℚ) ≤ (L : ℚ) * ((T ⌈/⌉ L : Nat) : ℚ) := by exact_mod_cast h3
    linarith

/-- C5: for every list request, `totalPages = ceil(totalPosts / limit)` and
`hasMore = (page * limit < totalPosts)`; concretely for 25 posts with limit
10, page 3 gives `totalPages = 3` and `hasMore = false`, and page 2 gives
`hasMore = true`. -/
theorem claim5_theorem :
    (∀ T L p : Nat, 1 ≤ L →
      (paginationBlock T p L).totalPages = Nat.ceil ((T : ℚ) / (L : ℚ)) ∧
      ((paginationBlock T p L).hasMore = true ↔ p * L < T)) ∧
    (paginationBlock 25 3 10).totalPages = 3 ∧
    (paginationBlock 25 3 10).hasMore = false ∧
    (paginationBlock 25 2 10).hasMore = true := by
  refine ⟨fun T L p hL => ⟨add_pred_div_eq_ceil T L hL, ?_⟩, by decide, by decide, by decide⟩
  simp [paginationBlock]

/-- C5 witness: the universal part of the theorem at the claim's own concrete
instance (25 posts, limit 10, page 3). -/
theorem claim5_witness :
    (paginationBlock 25 3 10).totalPages = Nat.ceil ((25 : ℚ) / (10 : ℚ)) ∧
    ((paginationBlock 25 3 10).hasMore = true ↔ 3 * 10 < 25) :=
  claim5_theorem.1 25 10 3 (by decide)

/-! ### List search filter (`src/routes/posts.js:100-116`)
The handler builds, when `search` is truthy, the Mongo filter
`$or: [{heading: {$regex: search, $options: 'i'}},
       {description: {$regex: search, $options: 'i'}}]`,
i.e. the search term is interpreted as a case-insensitive REGULAR EXPRESSION
over either field, not as a literal substring. The regex semantics is
embedded executably for the fragment: literal characters, the `.`
metacharacter (match any character) and the postfix quantifiers `*`, `+`,
`?`; `$options: 'i'` folds letter case. The remaining PCRE metacharacters
(classes, groups, alternation, anchors, escapes, counted repetition) are NOT
given their regex meaning by this embedding, so every theorem equating the
filter with substring matching hypothesises a term free of ALL
metacharacters (`regexMetaChars`), where the embedded fragment and PCRE
agree: a metacharacter-free pattern is matched literally. -/

/-- ASCII case folding, as the regex `i` option applies to the inputs of this
development. -/
def lowerChar (c : Char) : Char :=
  if 'A' ≤ c ∧ c ≤ 'Z' then Char.ofNat (c.toNat + 32) else c

/-- A regex atom of the embedded fragment: `.` or a literal character. -/
inductive RegexAtom where
  | anyChar
  | literal (c : Char)
deriving DecidableEq, Repr

/-- An atom with its quantifier: bare, `*` (zero or more), `+` (one or
more), or `?` (zero or one). -/
inductive RegexPiece where
  | once (a : RegexAtom)
  | star (a : RegexAtom)
  | plus (a : RegexAtom)
  | opt (a : RegexAtom)
deriving DecidableEq, Repr

def toAtom (c : Char) : RegexAtom :=
  if c = '.' then RegexAtom.anyChar else RegexAtom.literal c

/-- Parse a pattern into quantified atoms: a character followed by `*`, `+`
or `?` forms one quantified piece, any other character a bare piece. -/
def parseRegex : List Char → List RegexPiece
  | [] => []
  | [c] => [RegexPiece.once (toAtom c)]
  | c :: q :: rest =>
    if q = '*' then RegexPiece.star (toAtom c) :: parseRegex rest
    else if q = '+' then RegexPiece.plus (toAtom c) :: parseRegex rest
    else if q = '?' then RegexPiece.opt (toAtom c) :: parseRegex rest
    else RegexPiece.once (toAtom c) :: parseRegex (q :: rest)

/-- One atom against one subject character (with the `i` option): `.`
matches anything, a literal matches up to case. -/
def atomMatches (a : RegexAtom) (c : Char) : Bool :=
  match a with
  | RegexAtom.anyChar => true
  | RegexAtom.literal p => lowerChar p = lowerChar c

/-- Whether a piece list accepts the empty subject: bare and `+` pieces
demand a character, `*` and `?` pieces can be skipped. -/
def nullablePieces : List RegexPiece → Bool
  | [] => true
  | RegexPiece.once _ :: _ => false
  | RegexPiece.star _ :: ps => nullablePieces ps
  | RegexPiece.plus _ :: _ => false
  | RegexPiece.opt _ :: ps => nullablePieces ps

/-- Derivative of a piece list by one consumed character: the piece lists
that remain to be matched (several, since `*` and `?` pieces may either
consume the character or be skipped). -/
def derivPieces (c : Char) : List RegexPiece → List (List RegexPiece)
  | [] => []
  | RegexPiece.once a :: ps => if atomMatches a c then [ps] else []
  | RegexPiece.star a :: ps =>
    (if atomMatches a c then [RegexPiece.star a :: ps] else []) ++ derivPieces c ps
  | RegexPiece.plus a :: ps =>
    if atomMatches a c then [RegexPiece.star a :: ps] else []
  | RegexPiece.opt a :: ps =>
    (if atomMatches a c then [ps] else []) ++ derivPieces c ps

def anyNullable (states : List (List RegexPiece)) : Bool :=
  states.any nullablePieces

def stepStates (c : Char) (states : List (List RegexPiece)) : List (List RegexPiece) :=
  states.flatMap (derivPieces c)

/-- Whether any of the current states matches some prefix of the subject. -/
def matchPrefixStates : List (List RegexPiece) → List Char → Bool
  | states, [] => anyNullable states
  | states, c :: cs => anyNullable states || matchPrefixStates (stepStates c states) cs

/-- Whether the pattern matches a prefix of the subject. -/
def regexMatchPrefix (pieces : List RegexPiece) (s : List Char) : Bool :=
  matchPrefixStates [pieces] s

/-- Unanchored search: the parsed pattern matches starting at some position
of the subject. -/
def regexSearch (pieces : List RegexPiece) : List Char → Bool
  | [] => regexMatchPrefix pieces []
  | c :: cs => regexMatchPrefix pieces (c :: cs) || regexSearch pieces cs

/-- Unanchored regex test (`$regex` with `$options: 'i'` semantics, for the
embedded fragment). -/
def regexTest (pat s : List Char) : Bool :=
  regexSearch (parseRegex pat) s

/-- Whether a post satisfies the list handler's search filter: truthy search
terms are tested as case-insensitive regexes against heading OR description;
an empty (or absent) term builds no filter and matches every post. -/
def postMatchesSearch (p : Post) (search : String) : Bool :=
  if search.data.isEmpty then true
  else regexTest search.data p.heading.data || regexTest search.data p.description.data

/-- Case-insensitive literal prefix comparison (the spec's notion). -/
def substringPrefixCI : List Char → List Char → Bool
  | [], _ => true
  | _ :: _, [] => false
  | p :: ps, c :: cs => (lowerChar p = lowerChar c) && substringPrefixCI ps cs

/-- The spec's notion of the filter, stated from its words: the term occurs in
the subject as a case-insensitive SUBSTRING. -/
def containsSubstringCI : List Char → List Char → Bool
  | pat, [] => substringPrefixCI pat []
  | pat, c :: cs => substringPrefixCI pat (c :: cs) || containsSubstringCI pat cs

/-- Claim C7's property as stated: for every post and every supplied search
term, the filter matches exactly the posts with the term as a
case-insensitive substring of heading or description, and an empty term
matches all. -/
def searchIsSubstringMatch : Prop :=
  ∀ (p : Post) (search : String),
    postMatchesSearch p search =
      (search.data.isEmpty ||
       containsSubstringCI search.data p.heading.data ||
       containsSubstringCI search.data p.description.data)

/-- The "Hello World" post of the claim's example. -/
def helloPost : Post :=
  { heading := "Hello World", description := "a greeting for the world",
    image := "" }

/-- C7 (counterexample): the claim fails on the code because the term is fed
to `$regex`, not matched literally: the search term `"."` matches the
"Hello World" post (a regex `.` matches any character) although `"."` is not
a case-insensitive substring of its heading or description. -/
theorem claim7_counterexample : ¬ searchIsSubstringMatch := by
  intro h
  have hdot := h helloPost "."
  revert hdot
  decide

/-- The PCRE metacharacters: a term containing none of them is matched
literally by `$regex`. Every coincidence-with-substring theorem below
excludes all of them, including those outside the executable fragment. -/
def regexMetaChars : List Char :=
  ['.', '*', '+', '?', '[', ']', '(', ')', '\x7b', '\x7d', '|', '^', '$', '\\']

/-- The parsed form of a metacharacter-free term: one bare literal piece per
character. -/
def literalPieces (pat : List Char) : List RegexPiece :=
  pat.map (fun c => RegexPiece.once (RegexAtom.literal c))

theorem parseRegex_of_no_meta (pat : List Char)
    (h : ∀ c ∈ pat, c ∉ regexMetaChars) :
    parseRegex pat = literalPieces pat := by
  induction pat with
  | nil => rfl
  | cons c rest ih =>
    have hc : c ≠ '.' := by
      intro hcontra
      exact h c (List.mem_cons_self c rest) (by rw [hcontra]; decide)
    have hrest : ∀ x ∈ rest, x ∉ regexMetaChars :=
      fun x hx => h x (List.mem_cons_of_mem c hx)
    cases rest with
    | nil => simp [parseRegex, literalPieces, toAtom, hc]
    | cons q rest2 =>
      have hq : q ∈ regexMetaChars → False :=
        h q (List.mem_cons_of_mem c (List.mem_cons_self q rest2))
      have hq1 : q ≠ '*' := fun hx => hq (by rw [hx]; decide)
      have hq2 : q ≠ '+' := fun hx => hq (by rw [hx]; decide)
      have hq3 : q ≠ '?' := fun hx => hq (by rw [hx]; decide)
      simp only [parseRegex, if_neg hq1, if_neg hq2, if_neg hq3, toAtom,
        if_neg hc, ih hrest, literalPieces, List.map]

theorem matchPrefixStates_nil (s : List Char) :
    matchPrefixStates [] s = false := by
  induction s with
  | nil => rfl
  | cons c cs ih =>
    simpa [matchPrefixStates, anyNullable, stepStates] using ih

theorem matchPrefixStates_literal (pat : List Char) :
    ∀ s : List Char,
      matchPrefixStates [literalPieces pat] s = substringPrefixCI pat s := by
  induction pat with
  | nil =>
    intro s
    cases s <;> simp [literalPieces, matchPrefixStates, anyNullable,
      nullablePieces, substringPrefixCI]
  | cons p ps ih =>
    intro s
    cases s with
    | nil => rfl
    | cons c cs =>
      have hstep : stepStates c [literalPieces (p :: ps)] =
          if lowerChar p = lowerChar c then [literalPieces ps] else [] := by
        by_cases hm : lowerChar p = lowerChar c <;>
          simp [stepStates, literalPieces, derivPieces, atomMatches, hm]
      have hnull : anyNullable [literalPieces (p :: ps)] = false := by
        simp [anyNullable, literalPieces, nullablePieces]
      simp only [matchPrefixStates, hstep, hnull, Bool.false_or, substringPrefixCI]
      by_cases hm : lowerChar p = lowerChar c
      · rw [if_pos hm, ih cs]
        simp [hm]
      · rw [if_neg hm, matchPrefixStates_nil]
        simp [hm]

theorem regexSearch_literal (pat : List Char) :
    ∀ s : List Char,
      regexSearch (literalPieces pat) s = containsSubstringCI pat s := by
  intro s
  induction s with
  | nil =>
    simp [regexSearch, regexMatchPrefix, containsSubstringCI,
      matchPrefixStates_literal]
  | cons c cs ih =>
    simp [regexSearch, regexMatchPrefix, containsSubstringCI, ih,
      matchPrefixStates_literal]

theorem containsSubstringCI_eq_regexTest (pat s : List Char)
    (h : ∀ c ∈ pat, c ∉ regexMetaChars) :
    regexTest pat s = containsSubstringCI pat s := by
  unfold regexTest
  rw [parseRegex_of_no_meta pat h, regexSearch_literal]

/-- C7 (amended): the filter interprets the search term as a case-insensitive
regular expression over heading OR description (empty/absent term matches
all); for terms containing no regex metacharacter — none of
`. * + ? [ ] ( ) { } | ^ $ \`, which `$regex` would treat non-literally —
this coincides with case-insensitive substring matching, so the
"Hello World" post matches `search=hello` and not `search=xyz`; but a term
with a metacharacter can match posts not containing it as a substring: `.`
matches every post with a non-empty field, and `a*` matches EVERY post (the
empty repetition), though neither occurs as a substring here. -/
theorem claim7_amended :
    (∀ (p : Post) (search : String),
      (∀ c ∈ search.data, c ∉ regexMetaChars) →
      postMatchesSearch p search =
        (search.data.isEmpty ||
         containsSubstringCI search.data p.heading.data ||
         containsSubstringCI search.data p.description.data)) ∧
    (∀ p : Post, postMatchesSearch p "" = true) ∧
    postMatchesSearch helloPost "hello" = true ∧
    postMatchesSearch helloPost "xyz" = false ∧
    postMatchesSearch helloPost "." = true ∧
    containsSubstringCI (String.data ".") helloPost.heading.data = false ∧
    containsSubstringCI (String.data ".") helloPost.description.data = false ∧
    postMatchesSearch helloPost "a*" = true ∧
    containsSubstringCI (String.data "a*") helloPost.heading.data = false ∧
    containsSubstringCI (String.data "a*") helloPost.description.data = false := by
  refine ⟨fun p search hmeta => ?_, fun p => rfl, by decide, by decide,
    by decide, by decide, by decide, by decide, by decide, by decide⟩
  unfold postMatchesSearch
  by_cases he : search.data.isEmpty
  · simp [he]
  · simp [he, containsSubstringCI_eq_regexTest search.data p.heading.data hmeta,
      containsSubstringCI_eq_regexTest search.data p.description.data hmeta]

/-- C7 witness: the amended equivalence at the concrete "Hello World" post
and the metacharacter-free term "hello". -/
theorem claim7_witness :
    postMatchesSearch helloPost "hello" =
      ((String.data "hello").isEmpty ||
       containsSubstringCI (String.data "hello") helloPost.heading.data ||
       containsSubstringCI (String.data "hello") helloPost.description.data) :=
  (claim7_amended.1 helloPost "hello" (by decide))

/-! ### C8: partial updates (`src/routes/posts.js:313-331`) -/

theorem findById_storeSet (id : Nat) (p q : Post) (store : RecordStore)
    (h : findById id store = some q) :
    findById id (storeSet id p store) = some p := by
  induction store with
  | nil => simp [findById] at h
  | cons e rest ih =>
    obtain ⟨i, r⟩ := e
    by_cases hi : i = id
    · subst hi
      simp [storeSet, findById, List.find?]
    · have h' : findById id rest = some q := by
        simpa [findById, List.find?, hi] using h
      simpa [storeSet, hi, findById, List.find?] using ih h'

/-- C8: for every update request on an existing post, every field omitted
from the request body (heading, description, image) keeps its existing
persisted value in the updated record: an omitted field never enters
`updateData`, and `findByIdAndUpdate` leaves fields outside the partial
update unchanged. -/
theorem claim8_theorem (store : RecordStore) (id : Nat) (b : UpdateBody)
    (p : Post) (hp : findById id store = some p) :
    ∃ q : Post,
      findById id (updateRequest store id b).1 = some q ∧
      (b.heading = none → q.heading = p.heading) ∧
      (b.description = none → q.description = p.description) ∧
      (b.file = none → q.image = p.image) := by
  have h1 : (updateRequest store id b).1 =
      storeSet id (applyUpdateData p (mkUpdateData b)) store := by
    unfold updateRequest
    rw [hp]
  refine ⟨applyUpdateData p (mkUpdateData b), ?_, ?_, ?_, ?_⟩
  · rw [h1]
    exact findById_storeSet id _ p store hp
  · intro hh
    simp [applyUpdateData, mkUpdateData, hh, truthy]
  · intro hd
    simp [applyUpdateData, mkUpdateData, hd, truthy]
  · intro hf
    simp [applyUpdateData, mkUpdateData, hf]

/-- C8 witness: an update with all three fields omitted leaves the stored
record's heading, description and image unchanged. -/
theorem claim8_witness :
    ∃ q : Post,
      findById 0 (updateRequest storeOneImage 0
        { heading := none, description := none, file := none }).1 = some q ∧
      ((none : Option String) = none → q.heading = "Old heading") ∧
      ((none : Option String) = none → q.description = "old description text") ∧
      ((none : Option String) = none →
        q.image = "http://res.example/blog-uploads/old.png") :=
  claim8_theorem storeOneImage 0
    { heading := none, description := none, file := none }
    { heading := "Old heading", description := "old description text",
      image := "http://res.example/blog-uploads/old.png" }
    (by decide)

/-! ### Asset Store Adapter: `deleteImage` (`src/unnamed/part_002:31-45`) -/

/-- The Cloudinary blob store together with an arbitrary failure oracle:
`failsOn pid = true` means `cloudinary.uploader.destroy(pid)` throws (network
failure, auth failure, ...). A destroy of an absent blob is NOT a failure:
Cloudinary answers `result: 'not found'` without throwing. -/
structure AssetStore where
  blobs : List String
  failsOn : String → Bool

/-- `cloudinary.uploader.destroy`: throws when the oracle says so, otherwise
removes the blob (a no-op when it is absent) and returns normally. -/
def destroy (publicId : String) (st : AssetStore) : Except String AssetStore :=
  if st.failsOn publicId then Except.error "destroy failed"
  else Except.ok { st with blobs := st.blobs.filter (fun b => b ≠ publicId) }

/-- JavaScript `String.prototype.split` with a one-character separator, over
the character list. -/
def splitOnChar (sep : Char) : List Char → List Char → List (List Char)
  | [], acc => [acc.reverse]
  | c :: cs, acc =>
    if c = sep then acc.reverse :: splitOnChar sep cs []
    else splitOnChar sep cs (c :: acc)

/-- The public-id derivation in `deleteImage`: last `/`-segment of the URL,
stripped of its extension, under the `blog-uploads/` folder. -/
def publicIdOfUrl (url : String) : String :=
  let urlParts := splitOnChar '/' url.data []
  let publicIdWithExt := urlParts.getLastD []
  String.mk ("blog-uploads/".data ++ (splitOnChar '.' publicIdWithExt []).headD [])

/-- `deleteImage(imageUrl)`: returns immediately on a falsy URL; otherwise
derives the public id and destroys the blob inside `try`/`catch` — any error
is logged and swallowed, so the function itself never throws. The `Except`
result records whether an exception ESCAPES `deleteImage`. -/
def deleteImage (imageUrl : String) (st : AssetStore) : Except String AssetStore :=
  if imageUrl.data.isEmpty then Except.ok st
  else
    match destroy (publicIdOfUrl imageUrl) st with
    | Except.ok st2 => Except.ok st2
    | Except.error _ => Except.ok st

/-- C9: `deleteImage` is best-effort and total: for EVERY url and every blob
store (including every failure behavior of the underlying destroy call) it
returns normally — no error ever propagates to the caller — and deleting an
absent blob succeeds as a no-op, leaving the store untouched. -/
theorem claim9_theorem :
    (∀ (url : String) (st : AssetStore),
      ∃ st2, deleteImage url st = Except.ok st2) ∧
    (∀ (url : String) (st : AssetStore),
      st.failsOn (publicIdOfUrl url) = false →
      publicIdOfUrl url ∉ st.blobs →
      deleteImage url st = Except.ok st) := by
  constructor
  · intro url st
    unfold deleteImage
    by_cases he : url.data.isEmpty
    · exact ⟨st, by simp [he]⟩
    · cases hd : destroy (publicIdOfUrl url) st with
      | ok st2 => exact ⟨st2, by simp [he, hd]⟩
      | error e => exact ⟨st, by simp [he, hd]⟩
  · intro url st hf hmem
    unfold deleteImage
    by_cases he : url.data.isEmpty
    · simp [he]
    · have hfilter : st.blobs.filter (fun b => b ≠ publicIdOfUrl url) = st.blobs := by
        apply List.filter_eq_self.mpr
        intro a ha
        simp only [ne_eq, decide_eq_true_eq]
        intro hcontra
        exact hmem (hcontra ▸ ha)
      have hd : destroy (publicIdOfUrl url) st = Except.ok st := by
        unfold destroy
        rw [hf, if_neg Bool.false_ne_true, hfilter]
      simp [he, hd]

/-- A concrete asset store whose destroy call never throws and which does not
hold the blob about to be deleted. -/
def exampleAssetStore : AssetStore :=
  { blobs := ["blog-uploads/other"], failsOn := fun _ => false }

/-- C9 witness: deleting an absent blob from the concrete store returns
normally and leaves the store untouched. -/
theorem claim9_witness :
    (∃ st2, deleteImage "http://res.example/blog-uploads/absent.png"
      exampleAssetStore = Except.ok st2) ∧
    deleteImage "http://res.example/blog-uploads/absent.png"
      exampleAssetStore = Except.ok exampleAssetStore :=
  ⟨claim9_theorem.1 "http://res.example/blog-uploads/absent.png" exampleAssetStore,
   claim9_theorem.2 "http://res.example/blog-uploads/absent.png" exampleAssetStore
     rfl (by decide)⟩

end LilSaplings
